import Mathlib

/-!
Verification of the Stata `.dta` reader/writer (`pandas/io/stata.py`).

The development shallowly embeds the parts of the module that the claims
are about:

* the date codec `_stata_elapsed_date_to_datetime_vec` /
  `_datetime_to_stata_elapsed_vec` (calendar arithmetic of the external
  datetime library is modelled by explicit proleptic-Gregorian
  year/month walking; machine floats are modelled by exact rationals,
  with bit-level IEEE-754 decoding where the code manipulates bit
  patterns);
* the missing-value model (`StataMissingValue`, `VALID_RANGE`,
  `MISSING_VALUES`);
* the writer-side cast `_cast_to_stata_types`;
* the version-117 header parsing of `StataReader._read_header`;
* the reader's missing-value replacement in `StataReader.data`;
* the read-sequencing state machine (`_data_read`,
  `_value_labels_read`);
* the writer's column-name sanitization
  (`StataWriter._check_column_names`).

Python `//` and `%` on an `int64` with a positive divisor are floor
division and nonnegative remainder, which coincide with Lean's `Int`
`/` (`Int.ediv`) and `%` (`Int.emod`); all divisors appearing below are
positive.
-/

/-! ### Byte-level primitives (struct.unpack / struct.pack) -/

/-- Value of a little-endian byte list (`struct.unpack('<...')`). -/
def leBytesToNat : List Nat → Nat
  | [] => 0
  | b :: rest => b + 256 * leBytesToNat rest

/-- Value of a big-endian byte list (`struct.unpack('>...')`). -/
def beBytesToNat (l : List Nat) : Nat := leBytesToNat l.reverse

/-- Little-endian encoding of a value into `w` bytes (`struct.pack('<...')`). -/
def natToLeBytes : Nat → Nat → List Nat
  | 0, _ => []
  | w+1, n => n % 256 :: natToLeBytes w (n / 256)

/-- Reinterpretation of a 64-bit unsigned value as signed (`struct.unpack('q')`). -/
def signed64OfNat (u : Nat) : Int := if u < 2^63 then (u : Int) else (u : Int) - 2^64

/-- Exact rational value of an IEEE-754 double given its 64-bit pattern
(sign, 11 exponent bits with bias 1023, 52 mantissa bits).  Patterns with
exponent field 2047 (infinities / NaNs) do not occur in this development. -/
def float64ValOfBits (b : Nat) : ℚ :=
  let s : Int := if b / 2^63 % 2 = 0 then 1 else -1
  let e : Nat := b / 2^52 % 2^11
  let m : Nat := b % 2^52
  if e = 0 then ((s * m : Int) : ℚ) / (((2^1074 : Nat) : Int) : ℚ)
  else if 1075 ≤ e then ((s * (((2^52 + m) * 2^(e - 1075) : Nat) : Int) : Int) : ℚ)
  else ((s * ((2^52 + m : Nat) : Int) : Int) : ℚ) / (((2^(1075 - e) : Nat) : Int) : ℚ)

/-- Exact rational value of an IEEE-754 single given its 32-bit pattern
(sign, 8 exponent bits with bias 127, 23 mantissa bits). -/
def float32ValOfBits (b : Nat) : ℚ :=
  let s : Int := if b / 2^31 % 2 = 0 then 1 else -1
  let e : Nat := b / 2^23 % 2^8
  let m : Nat := b % 2^23
  if e = 0 then ((s * m : Int) : ℚ) / (((2^149 : Nat) : Int) : ℚ)
  else if 150 ≤ e then ((s * (((2^23 + m) * 2^(e - 150) : Nat) : Int) : Int) : ℚ)
  else ((s * ((2^23 + m : Nat) : Int) : Int) : ℚ) / (((2^(150 - e) : Nat) : Int) : ℚ)

/-- Truncation of a rational toward zero, the semantics of
`ndarray.astype(np.int64)` applied to a float value (`Int.div` is
T-division). -/
def ratTrunc (q : ℚ) : Int := Int.tdiv q.num q.den

/-! ### Proleptic-Gregorian calendar

Model of the calendar arithmetic performed by the external datetime
library (`datetime.datetime`, `pandas.Timestamp`, `relativedelta`):
leap-year rule, month lengths, and the bijection between a day count
relative to the Stata epoch 1960-01-01 and a civil `(year, day-of-year)`
pair, realized by explicit year walking. -/

/-- Gregorian leap-year predicate (as in `calendar.isleap`). -/
def isLeap (y : Int) : Bool := (y % 4 == 0 && y % 100 != 0) || y % 400 == 0

/-- Number of days in a calendar year (365, or 366 in a leap year). -/
def daysInYear (y : Int) : Nat := 365 + (if isLeap y then 1 else 0)

/-- Month lengths January..December. -/
def monthLens (leap : Bool) : List Nat :=
  [31, if leap then 29 else 28, 31, 30, 31, 30, 31, 31, 30, 31, 30, 31]

/-- Walk the month table: from a 0-based day-of-year to a 1-based
`(month, day)` pair.  `m` is the 1-based index of the first month of
`lens`. -/
def mdOfDoyAux : List Nat → Nat → Nat → Nat × Nat
  | [], m, doy => (m, doy + 1)
  | len :: rest, m, doy => if doy < len then (m, doy + 1) else mdOfDoyAux rest (m + 1) (doy - len)

/-- Convert a 0-based day-of-year to a 1-based `(month, day)` pair. -/
def mdOfDoy (leap : Bool) (doy : Nat) : Nat × Nat := mdOfDoyAux (monthLens leap) 1 doy

/-- Sum of the lengths of the months strictly before month `m`. -/
def doyOfMdAux : List Nat → Nat → Nat → Nat
  | [], _, acc => acc
  | len :: rest, m, acc => if m = 1 then acc else doyOfMdAux rest (m - 1) (acc + len)

/-- Convert a 1-based `(month, day)` pair to a 0-based day-of-year. -/
def doyOfMd (leap : Bool) (m d : Nat) : Nat := doyOfMdAux (monthLens leap) m 0 + (d - 1)

/-- Day number of January 1 of year `y`, counted from the Stata epoch
1960-01-01 (day 0). -/
def rdOfYear (y : Int) : Int :=
  if y > 1960 then rdOfYear (y - 1) + daysInYear (y - 1)
  else if y < 1960 then rdOfYear (y + 1) - daysInYear y
  else 0
termination_by (y - 1960).natAbs
decreasing_by all_goals (simp_wf; omega)

/-- Walk forward from January 1 of year `y` by `n` days, producing the
reached `(year, day-of-year)`. -/
def yearFwd (y : Int) (n : Nat) : Int × Nat :=
  if n < daysInYear y then (y, n)
  else yearFwd (y + 1) (n - daysInYear y)
termination_by n
decreasing_by
  simp_wf
  unfold daysInYear at *
  omega

/-- Walk backward from January 1 of year `y` by `m ≥ 1` days, producing
the reached `(year, day-of-year)`. -/
def yearBwd (y : Int) (m : Nat) : Int × Nat :=
  if m ≤ daysInYear (y - 1) then (y - 1, daysInYear (y - 1) - m)
  else yearBwd (y - 1) (m - daysInYear (y - 1))
termination_by m
decreasing_by
  simp_wf
  unfold daysInYear at *
  omega

/-- Civil `(year, day-of-year)` of the day `r` days after 1960-01-01. -/
def civilOfRd (r : Int) : Int × Nat :=
  if r ≥ 0 then yearFwd 1960 r.toNat else yearBwd 1960 (-r).toNat

/-- Datetime value as handled by the codec: civil date plus microseconds
within the day (the `datetime64[ns]` values of the source are
microsecond-exact after its `// 1000`). -/
structure PyDateTime where
  year : Int
  month : Int
  day : Int
  usOfDay : Int
  deriving DecidableEq, Repr

/-- Microseconds per day (`US_PER_DAY` of the source). -/
def usPerDay : Int := 24 * 3600 * 1000 * 1000

/-- Nanoseconds per day (`NS_PER_DAY` of the source). -/
def nsPerDay : Int := 24 * 3600 * 1000 * 1000 * 1000

/-- Milliseconds per day. -/
def msPerDay : Int := 24 * 3600 * 1000

/-- Datetime at `r` days after 1960-01-01 with time-of-day `us`
microseconds (the library operation `Timestamp(epoch) + timedelta`). -/
def dateOfRd (r : Int) (us : Int) : PyDateTime :=
  let yk := civilOfRd r
  let md := mdOfDoy (isLeap yk.1) yk.2
  ⟨yk.1, md.1, md.2, us⟩

/-- Day number of a datetime counted from 1960-01-01 (the library
operation `Timestamp - Timestamp(epoch)`, day part). -/
def rdOfDate (dt : PyDateTime) : Int :=
  rdOfYear dt.year + (doyOfMd (isLeap dt.year) dt.month.toNat dt.day.toNat : Int)

/-- Microseconds elapsed from 1960-01-01 00:00:00 to a datetime
(`(dates - stata_epoch).values.astype(np.int64) // 1000` of
`parse_dates_safe`). -/
def usSinceEpoch (dt : PyDateTime) : Int := rdOfDate dt * usPerDay + dt.usOfDay

/-- Day-of-year of a datetime as the source computes it for `%tw`:
nanoseconds from January 1 of the same year, floor-divided by
`NS_PER_DAY` (`d['days']` of `parse_dates_safe`). -/
def dayOfYearDays (dt : PyDateTime) : Int :=
  (usSinceEpoch dt * 1000 - rdOfYear dt.year * usPerDay * 1000) / nsPerDay

/-! ### Date codec (`_stata_elapsed_date_to_datetime_vec`,
`_datetime_to_stata_elapsed_vec`) -/

/-- Date display-format tags supported by both directions of the codec
(`tC` is excluded: it is passed through on read and rejected on write). -/
inductive StataDateFmt | tc | td | tw | tm | tq | th | ty
  deriving DecidableEq, Repr

/-- Stata-internal-format integer to datetime, one cell of
`_stata_elapsed_date_to_datetime_vec` (lines 180–217): per-tag epoch
arithmetic on the value after `astype(np.int64)`. -/
def sifToDatetime (fmt : StataDateFmt) (n : Int) : PyDateTime :=
  match fmt with
  | .tc => dateOfRd (n / msPerDay) ((n % msPerDay) * 1000)
  | .td => dateOfRd n 0
  | .tw => dateOfRd (rdOfYear (1960 + n / 52) + (n % 52) * 7) 0
  | .tm => ⟨1960 + n / 12, n % 12 + 1, 1, 0⟩
  | .tq => ⟨1960 + n / 4, (n % 4) * 3 + 1, 1, 0⟩
  | .th => ⟨1960 + n / 2, (n % 2) * 6 + 1, 1, 0⟩
  | .ty => ⟨n, 1, 1, 0⟩

/-- Datetime to Stata-internal-format value, one cell of
`_datetime_to_stata_elapsed_vec` (lines 285–312): the result is the
float64 the source stores (exact here; the stated range hypotheses of
the round-trip theorems keep the source's float64 arithmetic exact). -/
def datetimeToSif (fmt : StataDateFmt) (dt : PyDateTime) : ℚ :=
  match fmt with
  | .tc => (usSinceEpoch dt : ℚ) / 1000
  | .td => ((usSinceEpoch dt / usPerDay : Int) : ℚ)
  | .tw => ((52 * (dt.year - 1960) + dayOfYearDays dt / 7 : Int) : ℚ)
  | .tm => ((12 * (dt.year - 1960) + dt.month - 1 : Int) : ℚ)
  | .tq => ((4 * (dt.year - 1960) + (dt.month - 1) / 3 : Int) : ℚ)
  | .th => ((2 * (dt.year - 1960) + (if 6 < dt.month then 1 else 0) : Int) : ℚ)
  | .ty => ((dt.year : Int) : ℚ)

/-- Byte string the encoder unpacks for the generic float64 missing
value: `struct.unpack('<d', b'....e0 7f')` (line 315). -/
def sifMissingBytes : List Nat := [0, 0, 0, 0, 0, 0, 0xe0, 0x7f]

/-- The float64 generic missing sentinel value. -/
def sifMissingValue : ℚ := float64ValOfBits (leBytesToNat sifMissingBytes)

/-- Encoding of one (possibly null) datetime cell: null cells are
replaced by the epoch before conversion and then overwritten with the
float64 generic missing sentinel (lines 276–283 and 314–316). -/
def encodeDateCell (fmt : StataDateFmt) : Option PyDateTime → ℚ
  | none => sifMissingValue
  | some dt => datetimeToSif fmt dt

/-- Lower bound of `VALID_RANGE['d']`: `unpack('<d', b'ff ff ff ff ff ff ef ff')`. -/
def validMinD : ℚ := float64ValOfBits (leBytesToNat [0xff, 0xff, 0xff, 0xff, 0xff, 0xff, 0xef, 0xff])

/-- Upper bound of `VALID_RANGE['d']`: `unpack('<d', b'ff ff ff ff ff ff df 7f')`. -/
def validMaxD : ℚ := float64ValOfBits (leBytesToNat [0xff, 0xff, 0xff, 0xff, 0xff, 0xff, 0xdf, 0x7f])

/-- Reading one float64 date cell back: the reader first classifies
out-of-`VALID_RANGE` values as missing and replaces them by NaN
(`StataReader.data`, lines 1057–1087), and the date decoder turns NaN
into a null date (`bad_locs`, lines 172–177 and 219–220); an in-range
value is decoded after `astype(np.int64)` truncation. -/
def readDateCell (fmt : StataDateFmt) (q : ℚ) : Option PyDateTime :=
  if q < validMinD ∨ validMaxD < q then none
  else some (sifToDatetime fmt (ratTrunc q))

/-! ### Missing-value model (`StataMissingValue`, lines 468–494, and
`StataParser.VALID_RANGE` / `MISSING_VALUES`, lines 579–605) -/

/-- Symbol of the `i`-th missing value: `.` for `i = 0`, `.a` … `.z` for
`i = 1 … 26` (`'.' + chr(96 + i)`). -/
def missingSymbol (i : Nat) : String :=
  if i = 0 then "." else "." ++ String.singleton (Char.ofNat (96 + i))

/-- The 27 symbols in order. -/
def missingSymbols : List String := (List.range 27).map missingSymbol

/-- Integer sentinel bases of `StataMissingValue.MISSING_VALUES`:
`bases = (101, 32741, 2147483621)` for int8/int16/int32. -/
def intSentinelBases : List Int := [101, 32741, 2147483621]

/-- Base bit pattern of the float32 sentinels:
`base = b'\x00\x00\x00\x7f'` viewed little-endian. -/
def f32SentinelBase : Nat := leBytesToNat [0, 0, 0, 0x7f]

/-- Bit-pattern increment of the float32 sentinels:
`struct.unpack('<i', b'\x00\x08\x00\x00')`. -/
def f32SentinelInc : Nat := leBytesToNat [0, 0x08, 0, 0]

/-- Base bit pattern of the float64 sentinels:
`base = b'\x00\x00\x00\x00\x00\x00\xe0\x7f'` viewed little-endian. -/
def f64SentinelBase : Nat := leBytesToNat sifMissingBytes

/-- Bit-pattern increment of the float64 sentinels:
`struct.unpack('q', b'\x00\x00\x00\x00\x00\x01\x00\x00')`; the `'q'`
format uses the platform byte order, little-endian on the reference
platform. -/
def f64SentinelInc : Nat := leBytesToNat [0, 0, 0, 0, 0, 0x01, 0, 0]

/-- The generation loop of the float sentinel bit patterns: record the
current pattern, then advance the integer view by the increment
(lines 476–494; re-interpreting the recorded float back as bits is the
identity for these finite patterns). -/
def genSentinelBits (base inc : Nat) : Nat → List Nat
  | 0 => []
  | n + 1 => base :: genSentinelBits (base + inc) inc n

/-- Association-list lookup with decidable key equality (Python `dict`
lookup by float/int value). -/
def alookup {α : Type} [DecidableEq α] : List (α × String) → α → Option String
  | [], _ => none
  | (k, v) :: rest, q => if q = k then some v else alookup rest q

/-- Reverse lookup: first key carrying a given symbol. -/
def arevlookup {α : Type} : List (α × String) → String → Option α
  | [], _ => none
  | (k, v) :: rest, s => if s = v then some k else arevlookup rest s

/-- Scalar kinds of the missing-value model, named after the format
characters `b h l f d` used by `VALID_RANGE` / `MISSING_VALUES`. -/
inductive StataKind | b | h | l | f | d
  deriving DecidableEq, Repr

/-- The `MISSING_VALUES` entries restricted to one scalar kind, as
value/symbol pairs (integer kinds: `base + i ↦ symbol i`; float kinds:
the generated bit patterns decoded to their float values). -/
def missingValuePairs : StataKind → List (ℚ × String)
  | .b => (List.range 27).map (fun (i : Nat) => (((101 + i : Int) : ℚ), missingSymbol i))
  | .h => (List.range 27).map (fun (i : Nat) => (((32741 + i : Int) : ℚ), missingSymbol i))
  | .l => (List.range 27).map (fun (i : Nat) => (((2147483621 + i : Int) : ℚ), missingSymbol i))
  | .f => List.zip ((genSentinelBits f32SentinelBase f32SentinelInc 27).map float32ValOfBits)
      missingSymbols
  | .d => List.zip ((genSentinelBits f64SentinelBase f64SentinelInc 27).map float64ValOfBits)
      missingSymbols

/-- Sentinel value to symbol (`StataMissingValue.MISSING_VALUES[value]`,
restricted to a kind). -/
def symbolForSentinel (k : StataKind) (q : ℚ) : Option String := alookup (missingValuePairs k) q

/-- Symbol to sentinel value of a kind (inverse direction of the
bijection of §3 of the specification). -/
def sentinelForSymbol (k : StataKind) (s : String) : Option ℚ := arevlookup (missingValuePairs k) s

/-- The `i`-th sentinel value of a kind. -/
def sentinelOfIdx (k : StataKind) (i : Nat) : Option ℚ := ((missingValuePairs k).get? i).map (·.1)

/-! ### Writer-side cast (`_cast_to_stata_types`, lines 352–421) -/

/-- Numpy dtypes handled by `_cast_to_stata_types`. -/
inductive NpDtype | npBool | uint8 | uint16 | uint32 | int8 | int16 | int32 | int64 | float32 | float64
  deriving DecidableEq, Repr

/-- `data[col].max()` of a nonempty column. -/
def listMax : List Int → Int
  | [] => 0
  | x :: xs => xs.foldl max x

/-- `data[col].min()` of a nonempty column. -/
def listMin : List Int → Int
  | [] => 0
  | x :: xs => xs.foldl min x

/-- `np.iinfo(dtype).max` for the signed dtypes that occur as "if small"
targets of `conversion_data`. -/
def iinfoMax : NpDtype → Int
  | .int8 => 127
  | .int16 => 32767
  | .int32 => 2147483647
  | .int64 => 9223372036854775807
  | _ => 0

/-- The pre-pass over `conversion_data` (lines 380–398): bool and
unsigned dtypes are converted to a signed dtype depending on the
column maximum.  (No tuple of `conversion_data` has `np.float64` as its
"if large" entry, so the uint precision warning of lines 394–396 never
fires.) -/
def castPre (dt : NpDtype) (mx : Int) : NpDtype :=
  match dt with
  | .npBool => if mx ≤ iinfoMax .int8 then .int8 else .int8
  | .uint8 => if mx ≤ iinfoMax .int8 then .int8 else .int16
  | .uint16 => if mx ≤ iinfoMax .int16 then .int16 else .int32
  | .uint32 => if mx ≤ iinfoMax .int32 then .int32 else .int64
  | d => d

/-- One column of `_cast_to_stata_types`: the pre-pass followed by the
range checks of lines 401–414.  Returns the stored dtype and whether a
`PossiblePrecisionLoss` warning is issued for this column.  An int64
column cast to float64 keeps its values exactly representable in the
warning test whenever their magnitude is below `2 ** 53`, so the
float64 comparison of line 413 agrees with the integer comparison
used here. -/
def castToStataTypesCol (dt : NpDtype) (vals : List Int) : NpDtype × Bool :=
  let mx := listMax vals
  let mn := listMin vals
  let dt2 := castPre dt mx
  match dt2 with
  | .int8 => if 100 < mx ∨ mn < -127 then (.int16, false) else (.int8, false)
  | .int16 => if 32740 < mx ∨ mn < -32767 then (.int32, false) else (.int16, false)
  | .int64 =>
    if mx ≤ 2147483620 ∧ -2147483647 ≤ mn then (.int32, false)
    else (.float64, decide (2^53 ≤ mx ∨ mn ≤ -(2^53)))
  | d => (d, false)

/-- Format-legal numeric dtypes of the `.dta` format. -/
def stataLegalDtype (dt : NpDtype) : Bool :=
  match dt with
  | .int8 | .int16 | .int32 | .float32 | .float64 => true
  | _ => false

/-! ### Reader-side missing detection and replacement
(`StataParser.VALID_RANGE['b']` line 581, `StataReader.data`
lines 1057–1087) -/

/-- The sequencing state of a `StataReader`: format version plus the
`_data_read` and `_value_labels_read` flags. -/
structure ReaderState where
  formatVersion : Nat
  dataRead : Bool
  valueLabelsRead : Bool
  deriving DecidableEq, Repr

/-- Message of the labels-before-data `SequenceError` (lines 917–919). -/
def seqErrDataNotRead : String :=
  "Data has not been read. Because of the layout of Stata files, this is necessary before reading value labels."

/-- Message of the labels-twice `SequenceError` (line 921). -/
def seqErrLabelsTwice : String := "Value labels have already been read."

/-- Message of the data-twice `SequenceError` (line 1005). -/
def seqErrDataTwice : String := "Data has already been read."

/-- `_read_value_labels` as a state transition: version ≥ 117 seeks
directly; a legacy version first demands that data has been read and
that labels have not; versions ≤ 108 then return early (before the flag
assignment of line 961), versions above 108 run the label loop and set
`_value_labels_read`. -/
def readValueLabelsStep (s : ReaderState) : Except String ReaderState :=
  if 117 ≤ s.formatVersion then .ok { s with valueLabelsRead := true }
  else if ¬ s.dataRead then .error seqErrDataNotRead
  else if s.valueLabelsRead then .error seqErrLabelsTwice
  else if s.formatVersion ≤ 108 then .ok s
  else .ok { s with valueLabelsRead := true }

/-- `value_labels()` (lines 1122–1129): reads only when the flag is not
yet set. -/
def valueLabelsMethod (s : ReaderState) : Except String ReaderState :=
  if s.valueLabelsRead then .ok s else readValueLabelsStep s

/-- `data()` as a state transition (lines 1003–1023): the
already-read check, then the flag assignment `_data_read = True`
*before* any byte of the data block is consumed, then the body, whose
reads fail on a truncated stream (`streamComplete = false`) after the
flag is already set.  Returns the state as left by the call together
with its outcome. -/
def dataMethodStep (s : ReaderState) (streamComplete : Bool) : ReaderState × Except String Unit :=
  if s.dataRead then (s, .error seqErrDataTwice)
  else
    let s' := { s with dataRead := true }
    if streamComplete then (s', .ok ()) else (s', .error "truncated stream")

/-! ### Writer column-name sanitization
(`StataWriter._check_column_names`, lines 1355–1424) -/

/-- The Stata reserved words of `StataParser.RESERVED_WORDS`
(lines 616–625). -/
def reservedWords : List String :=
  ["aggregate", "array", "boolean", "break", "byte", "case", "catch", "class", "colvector",
   "complex", "const", "continue", "default", "delegate", "delete", "do", "double", "else",
   "eltypedef", "end", "enum", "explicit", "export", "external", "float", "for", "friend",
   "function", "global", "goto", "if", "inline", "int", "local", "long", "NULL", "pragma",
   "protected", "quad", "rowvector", "short", "typedef", "typename", "virtual"]

/-- Legality test of one character, the negation of the condition of
lines 1378–1379: in `A`–`Z`, `a`–`z`, `0`–`9`, or `_`. -/
def isStataLegalChar (c : Char) : Bool :=
  ('A' ≤ c && c ≤ 'Z') || ('a' ≤ c && c ≤ 'z') || ('0' ≤ c && c ≤ '9') || c = '_'

/-- The per-character replacement loop of lines 1377–1380: every
character outside the legal set is replaced by `_` (`name.replace(c, '_')`
for each illegal `c` of the original name replaces all its occurrences,
so the net effect is this character-wise map). -/
def sanitizeChars (l : List Char) : List Char :=
  l.map (fun c => if isStataLegalChar c then c else '_')

/-- Test `name[0] >= '0' and name[0] <= '9'` of line 1387
(an empty name has no `name[0]`; names here are nonempty). -/
def isDigitStartChars (l : List Char) : Bool :=
  match l with
  | [] => false
  | c :: _ => '0' ≤ c && c ≤ '9'

/-- Single-name sanitization (lines 1377–1390): character replacement,
`_`-prefix for reserved words, `_`-prefix for names starting with a
digit, truncation to 32 characters. -/
def sanitizeName (s : String) : String :=
  let n := sanitizeChars s.data
  let n := if reservedWords.contains (String.mk n) then '_' :: n else n
  let n := if isDigitStartChars n then '_' :: n else n
  String.mk (n.take 32)

/-- Decimal digits of a counter value (`str(duplicate_var_id)`),
fuel-based so that it evaluates by kernel reduction. -/
def natDigitsAux : Nat → Nat → List Char
  | 0, _ => []
  | fuel + 1, n =>
    if n < 10 then [Char.ofNat (48 + n)]
    else natDigitsAux fuel (n / 10) ++ [Char.ofNat (48 + n % 10)]

/-- Decimal representation of a natural number. -/
def natDigits (n : Nat) : List Char := natDigitsAux (n + 1) n

/-- The deduplication loop of lines 1394–1398: while the candidate name
occurs in the current column list, prepend `_` and the incrementing
counter and re-truncate to 32 characters.  `fuel` bounds the number of
iterations (the source loop is unbounded); `none` is fuel exhaustion. -/
def dedupLoop : Nat → List String → Nat → String → Option (String × Nat)
  | 0, _, _, _ => none
  | fuel + 1, columns, dupId, name =>
    if 0 < columns.count name then
      dedupLoop fuel columns (dupId + 1) (String.mk (('_' :: natDigits dupId ++ name.data).take 32))
    else some (name, dupId)

/-- Rename-log entry `'{0}   ->   {1}'.format(orig_name, name)` of
line 1405. -/
def renameLogEntry (orig final : String) : String := orig ++ "   ->   " ++ final

/-- The per-column loop of `_check_column_names` (lines 1371–1409):
`columns` is the evolving list (position `j` is overwritten only after
deduplication), `dupId` is `duplicate_var_id`, `log` collects
`converted_names`. -/
def checkColumnNamesGo : Nat → List String → Nat → Nat → Nat → List String →
    Option (List String × List String)
  | 0, columns, _, _, _, log => some (columns, log)
  | rem + 1, columns, fuel, j, dupId, log =>
    match columns.get? j with
    | none => some (columns, log)
    | some orig =>
      let name := sanitizeName orig
      if name = orig then checkColumnNamesGo rem columns fuel (j + 1) dupId log
      else
        match dedupLoop fuel columns dupId name with
        | none => none
        | some (final, dupId') =>
          checkColumnNamesGo rem (columns.set j final) fuel (j + 1) dupId'
            (log ++ [renameLogEntry orig final])

/-- `_check_column_names` on a list of column names, producing the new
names and the rename log. -/
def checkColumnNames (fuel : Nat) (cols : List String) : Option (List String × List String) :=
  checkColumnNamesGo cols.length cols fuel 0 0 []

/-- Warning emission of lines 1418–1422: nothing when no column was
renamed, otherwise one single `InvalidColumnName` warning whose payload
joins all rename-log entries (`'\n    '.join(converted_names)`). -/
def invalidNameWarnings (log : List String) : List String :=
  if log = [] then [] else [String.intercalate "\n    " log]

/-! ### Version-117 (tagged) header parsing
(`StataReader._read_header`, lines 681–787) -/

/-- Byte-order mark of the tagged header: `"MSF"` means big-endian. -/
inductive ByteOrderTag | little | big
  deriving DecidableEq, Repr

/-- `struct.unpack(byteorder + ...)` of an unsigned field. -/
def unpackUInt (bo : ByteOrderTag) (bs : List Nat) : Nat :=
  match bo with
  | .little => leBytesToNat bs
  | .big => beBytesToNat bs

/-- `struct.unpack(byteorder + 'q')` of a signed 64-bit field. -/
def unpackInt64 (bo : ByteOrderTag) (bs : List Nat) : Int := signed64OfNat (unpackUInt bo bs)

/-- `int(...)` on an ASCII digit string (the release field). -/
def parseAsciiNat (l : List Nat) : Option Nat :=
  l.foldl
    (fun acc? c => acc?.bind fun acc =>
      if 48 ≤ c ∧ c ≤ 57 then some (acc * 10 + (c - 48)) else none)
    (some 0)

/-- `self.path_or_buf.read(n)`: `n` bytes from the front of the stream,
failing when the stream is shorter. -/
def takeN (n : Nat) (l : List Nat) : Option (List Nat × List Nat) :=
  if n ≤ l.length then some (l.take n, l.drop n) else none

/-- The quantities `_read_header` computes for a version-117 file before
seeking to the individual sections. -/
structure Header117 where
  formatVersion : Nat
  byteorder : ByteOrderTag
  nvar : Nat
  nobs : Nat
  seekVartypes : Int
  seekVarnames : Int
  seekSortlist : Int
  seekFormats : Int
  seekValueLabelNames : Int
  seekVariableLabels : Int
  dataLocation : Int
  seekStrls : Int
  seekValueLabels : Int
  deriving DecidableEq, Repr

/-- One 8-byte signed offset read. -/
def readQ (bo : ByteOrderTag) (l : List Nat) : Option (Int × List Nat) :=
  (takeN 8 l).map fun p => (unpackInt64 bo p.1, p.2)

/-- Skip `n` bytes (a positional marker read whose content is unused). -/
def skipN (n : Nat) (l : List Nat) : Option (List Nat) := (takeN n l).map (·.2)

/-- Version-117 header preamble (lines 682–693): the `<` first
character, the release field (which must parse as 117), and the
byte-order mark (`"MSF"` means big-endian). -/
def parseHdr117Preamble (l : List Nat) : Option (ByteOrderTag × List Nat) := do
  let (c1, l) ← takeN 1 l
  if c1 = [60] then
    let l ← skipN 27 l
    let (vb, l) ← takeN 3 l
    let ver ← parseAsciiNat vb
    if ver = 117 then
      let l ← skipN 21 l
      let (bob, l) ← takeN 3 l
      let bo := if bob = [77, 83, 70] then ByteOrderTag.big else ByteOrderTag.little
      let l ← skipN 15 l
      some (bo, l)
    else none
  else none

/-- `K` (2 bytes) and `N` (4 bytes) of the version-117 header
(lines 694–699). -/
def parseHdr117Counts (bo : ByteOrderTag) (l : List Nat) : Option (Nat × Nat × List Nat) := do
  let (nvb, l) ← takeN 2 l
  let l ← skipN 7 l
  let (nob, l) ← takeN 4 l
  let l ← skipN 11 l
  some (unpackUInt bo nvb, unpackUInt bo nob, l)

/-- Length-prefixed data label and timestamp, and the map preamble
(lines 700–707). -/
def parseHdr117Strings (l : List Nat) : Option (List Nat) := do
  let (lb, l) ← takeN 1 l
  let l ← skipN (leBytesToNat lb) l
  let l ← skipN 19 l
  let (tb, l) ← takeN 1 l
  let l ← skipN (leBytesToNat tb) l
  let l ← skipN 26 l
  let l ← skipN 8 l
  skipN 8 l

/-- The eight stored 8-byte offsets in file order; the
`variable_labels` slot is read and thrown away (line 721) and the
`characteristics` slot is skipped (line 727). -/
structure RawSeeks117 where
  vartypes : Int
  varnames : Int
  sortlist : Int
  formats : Int
  valueLabelNames : Int
  dataPos : Int
  strls : Int
  valueLabels : Int
  deriving DecidableEq, Repr

/-- Offset table of the version-117 header (lines 708–733). -/
def parseHdr117Offsets (bo : ByteOrderTag) (l : List Nat) : Option RawSeeks117 := do
  let (q1, l) ← readQ bo l
  let (q2, l) ← readQ bo l
  let (q3, l) ← readQ bo l
  let (q4, l) ← readQ bo l
  let (q5, l) ← readQ bo l
  let l ← skipN 8 l
  let l ← skipN 8 l
  let (qd, l) ← readQ bo l
  let (qt, l) ← readQ bo l
  let (qv, _) ← readQ bo l
  some ⟨q1, q2, q3, q4, q5, qd, qt, qv⟩

/-- The version-117 branch of `_read_header` (lines 681–733) up to the
computation of all section positions: the stored offsets are corrected
by the format-fixed constants `+16, +10, +10, +9, +19, +6, +7, +14`,
and the `variable_labels` position is computed as the corrected
`value_label_names` offset plus `33*nvar + 20 + 17`, discarding the
value stored in the file (lines 718–726). -/
def readHeader117 (l : List Nat) : Option Header117 := do
  let (bo, l) ← parseHdr117Preamble l
  let (nvar, nobs, l) ← parseHdr117Counts bo l
  let l ← parseHdr117Strings l
  let rs ← parseHdr117Offsets bo l
  some
    { formatVersion := 117
      byteorder := bo
      nvar := nvar
      nobs := nobs
      seekVartypes := rs.vartypes + 16
      seekVarnames := rs.varnames + 10
      seekSortlist := rs.sortlist + 10
      seekFormats := rs.formats + 9
      seekValueLabelNames := rs.valueLabelNames + 19
      seekVariableLabels := rs.valueLabelNames + 19 + 33 * nvar + 20 + 17
      dataLocation := rs.dataPos + 6
      seekStrls := rs.strls + 7
      seekValueLabels := rs.valueLabels + 14 }

/-- Zero padding. -/
def zeros (n : Nat) : List Nat := List.replicate n 0

/-- Synthetic little-endian version-117 file: correct marker lengths,
`"117"` release, `"LSF"` byte order, `nvar`, zero `nobs`, empty data
label and timestamp, and the eight stored section offsets
`s1 … s5, sv, sd, st, sl` (with `sv` the stored `variable_labels` offset
that the reader throws away; the `characteristics` slot is zero). -/
def mkFile117 (nvar s1 s2 s3 s4 s5 sv sd st sl : Nat) : List Nat :=
  [60] ++ zeros 27 ++ [49, 49, 55] ++ zeros 21 ++ [76, 83, 70] ++ zeros 15 ++
  natToLeBytes 2 nvar ++ zeros 7 ++ natToLeBytes 4 0 ++ zeros 11 ++ [0] ++ zeros 19 ++
  [0] ++ zeros 26 ++ zeros 8 ++ zeros 8 ++
  natToLeBytes 8 s1 ++ natToLeBytes 8 s2 ++ natToLeBytes 8 s3 ++ natToLeBytes 8 s4 ++
  natToLeBytes 8 s5 ++ natToLeBytes 8 sv ++ zeros 8 ++
  natToLeBytes 8 sd ++ natToLeBytes 8 st ++ natToLeBytes 8 sl

/-! ### Version-117 column-type conversion
(`StataReader._read_header`, lines 736–753) -/

/-- Python exception values raised by the type-conversion block. -/
inductive PyErr
  | valueErr (msg : String)
  | typeErr (msg : String)
  | keyErr
  deriving DecidableEq, Repr

deriving instance DecidableEq for Except

/-- Python values appearing in `','.join(typlist)`. -/
inductive PyObj
  | pint (n : Nat)
  | pstr (s : String)
  deriving DecidableEq, Repr

/-- `str.join` over a list of Python objects: `TypeError` on the first
element that is not a string (as CPython raises for
`','.join([...int...])`). -/
def pyJoinCommaAux : Nat → List PyObj → Except PyErr (List String)
  | _, [] => .ok []
  | i, PyObj.pint _ :: _ =>
    .error (.typeErr ("sequence item " ++ String.mk (natDigits i) ++
      ": expected str instance, int found"))
  | i, PyObj.pstr s :: rest => (pyJoinCommaAux (i + 1) rest).map (s :: ·)

/-- `','.join(objs)`. -/
def pyJoinComma (l : List PyObj) : Except PyErr String :=
  (pyJoinCommaAux 0 l).map (String.intercalate ",")

/-- Column type resolved from a tagged-format type code. -/
inductive ColTyp
  | strf (len : Nat)
  | kind (k : StataKind)
  deriving DecidableEq, Repr

/-- `TYPE_MAP_XML` (lines 562–571). -/
def typeMapXml (t : Nat) : Option StataKind :=
  if t = 65526 then some .d
  else if t = 65527 then some .f
  else if t = 65528 then some .l
  else if t = 65529 then some .h
  else if t = 65530 then some .b
  else none

/-- One iteration of the conversion loop of lines 742–750: codes up to
2045 are fixed-string lengths, 32768 raises
`ValueError("Long strings are not supported")`, other codes are looked
up in `TYPE_MAP_XML` (a missing key raises `KeyError`). -/
def convTyp117 (t : Nat) : Except PyErr ColTyp :=
  if t ≤ 2045 then .ok (.strf t)
  else if t = 32768 then .error (.valueErr "Long strings are not supported")
  else
    match typeMapXml t with
    | some k => .ok (.kind k)
    | none => .error .keyErr

/-- The `try`/`except` block of lines 741–753: on any error of the
conversion loop the bare `except:` builds the message
`"cannot convert stata types [" + ','.join(typlist) + "]"` — but
`typlist` holds ints, so the join itself raises `TypeError`, which is
what actually propagates. -/
def convertTypList117 (ts : List Nat) : Except PyErr (List ColTyp) :=
  match ts.mapM convTyp117 with
  | .ok l => .ok l
  | .error _ =>
    match pyJoinComma (ts.map PyObj.pint) with
    | .ok s => .error (.valueErr ("cannot convert stata types [" ++ s ++ "]"))
    | .error e => .error e

/-! ### Statement abbreviations -/

/-- Round-trip property of one date tag at one Stata-internal-format
value `n`: encoding the decoded date recovers exactly `n` (as the
float64 the writer stores), and reading that stored value back through
the reader's missing scan and date decode recovers the decoded date. -/
def sifRoundTrip (fmt : StataDateFmt) (n : Int) : Prop :=
  datetimeToSif fmt (sifToDatetime fmt n) = ((n : Int) : ℚ) ∧
  readDateCell fmt (encodeDateCell fmt (some (sifToDatetime fmt n))) = some (sifToDatetime fmt n)

/-- The `i`-th sentinel value of a kind, with junk default outside
`0 ≤ i < 27`. -/
def sentinelVal (k : StataKind) (i : Nat) : ℚ :=
  (((missingValuePairs k).get? i).map Prod.fst).getD 0

/-! # Theorems -/

/-! ### List and byte-level lemmas -/

theorem takeN_exact {n : Nat} {b r : List Nat} (h : b.length = n) :
    takeN n (b ++ r) = some (b, r) := by
  simp [takeN, h.symm, List.take_append, List.drop_append]

theorem takeN_self {n : Nat} {b : List Nat} (h : b.length = n) :
    takeN n b = some (b, []) := by
  have := takeN_exact (r := []) h
  simpa using this

theorem natToLeBytes_length (w n : Nat) : (natToLeBytes w n).length = w := by
  induction w generalizing n with
  | zero => simp [natToLeBytes]
  | succ w ih => simp [natToLeBytes, ih]

theorem zeros_length (n : Nat) : (zeros n).length = n := by simp [zeros]

theorem leBytes_roundtrip (w n : Nat) : leBytesToNat (natToLeBytes w n) = n % 256^w := by
  induction w generalizing n with
  | zero => simp [natToLeBytes, leBytesToNat]; omega
  | succ w ih =>
    simp only [natToLeBytes, leBytesToNat, ih]
    have h1 : (256:Nat)^(w+1) = 256 * 256^w := by ring
    rw [h1]
    have h2 := Nat.div_add_mod (n % (256 * 256^w)) 256
    rw [Nat.mod_mul_right_div_self, Nat.mod_mod_of_dvd n ⟨256^w, rfl⟩] at h2
    omega

/-! ### Calendar lemmas -/

set_option maxRecDepth 4000 in
theorem doy_md_roundtrip_leap :
    ∀ doy < 366, doyOfMd true (mdOfDoy true doy).1 (mdOfDoy true doy).2 = doy ∧
      1 ≤ (mdOfDoy true doy).1 ∧ (mdOfDoy true doy).1 ≤ 12 := by decide

set_option maxRecDepth 4000 in
theorem doy_md_roundtrip_nonleap :
    ∀ doy < 365, doyOfMd false (mdOfDoy false doy).1 (mdOfDoy false doy).2 = doy ∧
      1 ≤ (mdOfDoy false doy).1 ∧ (mdOfDoy false doy).1 ≤ 12 := by decide

theorem daysInYear_bounds (y : Int) : 365 ≤ daysInYear y ∧ daysInYear y ≤ 366 := by
  unfold daysInYear
  split <;> omega

theorem rdOfYear_succ (y : Int) : rdOfYear (y + 1) = rdOfYear y + daysInYear y := by
  by_cases h : y + 1 > 1960
  · rw [rdOfYear]
    simp only [if_pos h]
    norm_num
  · have h2 : y < 1960 := by omega
    conv_rhs => rw [rdOfYear]
    simp only [if_neg (by omega : ¬ y > 1960), if_pos h2]
    ring

theorem rdOfYear_epoch : rdOfYear 1960 = 0 := by rw [rdOfYear]; norm_num

theorem yearFwd_sound : ∀ n : Nat, ∀ y : Int,
    rdOfYear (yearFwd y n).1 + ((yearFwd y n).2 : Int) = rdOfYear y + n ∧
    (yearFwd y n).2 < daysInYear (yearFwd y n).1 := by
  intro n
  induction n using Nat.strong_induction_on with
  | _ n ih =>
    intro y
    unfold yearFwd
    by_cases h : n < daysInYear y
    · simp only [if_pos h]
      constructor
      · simp
      · simpa using h
    · simp only [if_neg h]
      have hd := daysInYear_bounds y
      have := ih (n - daysInYear y) (by omega) (y + 1)
      rcases this with ⟨h1, h2⟩
      refine ⟨?_, h2⟩
      rw [h1, rdOfYear_succ]
      push_cast
      omega

theorem yearBwd_sound : ∀ m : Nat, ∀ y : Int, 1 ≤ m →
    rdOfYear (yearBwd y m).1 + ((yearBwd y m).2 : Int) = rdOfYear y - m ∧
    (yearBwd y m).2 < daysInYear (yearBwd y m).1 := by
  intro m
  induction m using Nat.strong_induction_on with
  | _ m ih =>
    intro y hm
    unfold yearBwd
    have hstep : rdOfYear y = rdOfYear (y - 1) + daysInYear (y - 1) := by
      have := rdOfYear_succ (y - 1); simpa using this
    have hd := daysInYear_bounds (y - 1)
    by_cases h : m ≤ daysInYear (y - 1)
    · simp only [if_pos h]
      constructor
      · rw [hstep]; push_cast; omega
      · omega
    · simp only [if_neg h]
      have := ih (m - daysInYear (y - 1)) (by omega) (y - 1) (by omega)
      rcases this with ⟨h1, h2⟩
      refine ⟨?_, h2⟩
      rw [h1, hstep]
      push_cast
      omega

theorem rdOfYear_mono : ∀ k : Nat, ∀ y : Int, rdOfYear y + 365 * k ≤ rdOfYear (y + k) := by
  intro k
  induction k with
  | zero => intro y; simp
  | succ k ih =>
    intro y
    have h1 := ih (y + 1)
    have h2 := rdOfYear_succ y
    have hd := daysInYear_bounds y
    have : y + 1 + k = y + (k + 1 : Nat) := by push_cast; ring
    rw [this] at h1
    push_cast at h1 ⊢
    omega

theorem civilOfRd_sound (r : Int) :
    rdOfYear (civilOfRd r).1 + ((civilOfRd r).2 : Int) = r ∧
    (civilOfRd r).2 < daysInYear (civilOfRd r).1 := by
  unfold civilOfRd
  by_cases h : r ≥ 0
  · simp only [if_pos h]
    have := yearFwd_sound r.toNat 1960
    rcases this with ⟨h1, h2⟩
    refine ⟨?_, h2⟩
    rw [h1, rdOfYear_epoch]
    omega
  · simp only [if_neg h]
    have hm : 1 ≤ (-r).toNat := by omega
    have := yearBwd_sound (-r).toNat 1960 hm
    rcases this with ⟨h1, h2⟩
    refine ⟨?_, h2⟩
    rw [h1, rdOfYear_epoch]
    omega

theorem civilOfRd_complete (Y : Int) (k : Nat) (hk : k < daysInYear Y) :
    civilOfRd (rdOfYear Y + k) = (Y, k) := by
  have hsound := civilOfRd_sound (rdOfYear Y + k)
  set Y' := (civilOfRd (rdOfYear Y + k)).1 with hY'
  set k' := (civilOfRd (rdOfYear Y + k)).2 with hk'
  rcases hsound with ⟨heq, hbnd⟩
  have hdY := daysInYear_bounds Y
  have hdY' := daysInYear_bounds Y'
  have hYY' : Y = Y' := by
    by_contra hne
    rcases lt_or_gt_of_ne hne with hlt | hgt
    · have h1 : Y' = Y + 1 + ((Y' - Y - 1).toNat : Int) := by omega
      have h2 := rdOfYear_mono (Y' - Y - 1).toNat (Y + 1)
      rw [← h1] at h2
      have h3 := rdOfYear_succ Y
      omega
    · have h1 : Y = Y' + 1 + ((Y - Y' - 1).toNat : Int) := by omega
      have h2 := rdOfYear_mono (Y - Y' - 1).toNat (Y' + 1)
      rw [← h1] at h2
      have h3 := rdOfYear_succ Y'
      omega
  have hkk : k = k' := by
    have : rdOfYear Y = rdOfYear Y' := by rw [hYY']
    omega
  rw [Prod.ext_iff]
  exact ⟨hYY'.symm, hkk.symm⟩

theorem doy_md_roundtrip (Y : Int) (k : Nat) (hk : k < daysInYear Y) :
    doyOfMd (isLeap Y) (mdOfDoy (isLeap Y) k).1 (mdOfDoy (isLeap Y) k).2 = k ∧
    1 ≤ (mdOfDoy (isLeap Y) k).1 ∧ (mdOfDoy (isLeap Y) k).1 ≤ 12 := by
  unfold daysInYear at hk
  by_cases hl : isLeap Y
  · rw [hl]
    apply doy_md_roundtrip_leap
    simp only [hl, if_true] at hk
    omega
  · rw [Bool.not_eq_true] at hl
    rw [hl]
    apply doy_md_roundtrip_nonleap
    simp only [hl, Bool.false_eq_true, if_false] at hk
    omega

theorem rdOfDate_dateOfRd (r : Int) (us : Int) :
    rdOfDate (dateOfRd r us) = r ∧ (dateOfRd r us).usOfDay = us ∧
    (dateOfRd r us).year = (civilOfRd r).1 := by
  have hsound := civilOfRd_sound r
  have hmd := doy_md_roundtrip (civilOfRd r).1 (civilOfRd r).2 hsound.2
  unfold dateOfRd rdOfDate
  refine ⟨?_, rfl, rfl⟩
  simp only
  rw [Int.toNat_ofNat, Int.toNat_ofNat]
  rw [hmd.1]
  exact hsound.1

/-! ### Date-codec lemmas -/

theorem ratTrunc_intCast (n : Int) : ratTrunc ((n : Int) : ℚ) = n := by
  unfold ratTrunc
  rw [Rat.intCast_num, Rat.intCast_den]
  cases n with
  | ofNat m => simp [Int.tdiv, Nat.div_one]
  | negSucc m => simp [Int.tdiv, Nat.div_one]; rw [Int.negSucc_eq]; ring

set_option maxRecDepth 10000 in
theorem validMaxD_eq : validMaxD = ((((2^53 - 1) * 2^970 : Nat) : Int) : ℚ) := by decide

set_option maxRecDepth 10000 in
theorem validMinD_eq : validMinD = ((-(((2^53 - 1) * 2^971 : Nat) : Int) : Int) : ℚ) := by decide

theorem readDateCell_of_small (fmt : StataDateFmt) (v : Int)
    (h1 : -(2^62) ≤ v) (h2 : v ≤ 2^62) :
    readDateCell fmt ((v : Int) : ℚ) = some (sifToDatetime fmt v) := by
  unfold readDateCell
  rw [if_neg, ratTrunc_intCast]
  rw [validMinD_eq, validMaxD_eq]
  rintro (h | h)
  · rw [Int.cast_lt] at h
    have : ((2:Nat)^62 : Int) ≤ (((2^53 - 1) * 2^971 : Nat) : Int) := by norm_num
    omega
  · rw [Int.cast_lt] at h
    have : ((2:Nat)^62 : Int) ≤ (((2^53 - 1) * 2^970 : Nat) : Int) := by norm_num
    omega

theorem encDec_tc (n : Int) : datetimeToSif .tc (sifToDatetime .tc n) = ((n : Int) : ℚ) := by
  simp only [sifToDatetime, datetimeToSif, usSinceEpoch]
  have h := rdOfDate_dateOfRd (n / msPerDay) ((n % msPerDay) * 1000)
  rw [h.1, h.2.1]
  have hval : n / msPerDay * usPerDay + n % msPerDay * 1000 = 1000 * n := by
    unfold usPerDay msPerDay
    omega
  rw [hval]
  have : ((1000 * n : Int) : ℚ) = 1000 * ((n : Int) : ℚ) := by push_cast; ring
  rw [this, mul_div_cancel_left₀]
  norm_num

theorem encDec_td (n : Int) : datetimeToSif .td (sifToDatetime .td n) = ((n : Int) : ℚ) := by
  simp only [sifToDatetime, datetimeToSif, usSinceEpoch]
  have h := rdOfDate_dateOfRd n 0
  rw [h.1, h.2.1]
  have hval : (n * usPerDay + 0) / usPerDay = n := by
    unfold usPerDay
    omega
  rw [hval]

theorem encDec_tw (n : Int) : datetimeToSif .tw (sifToDatetime .tw n) = ((n : Int) : ℚ) := by
  have hk7 : (0:Int) ≤ n % 52 * 7 := by omega
  set Y := 1960 + n / 52 with hY
  set k : Nat := (n % 52 * 7).toNat with hkdef
  have hkInt : (k : Int) = n % 52 * 7 := by omega
  have hkmax : k < daysInYear Y := by
    have := daysInYear_bounds Y
    omega
  have hciv : civilOfRd (rdOfYear Y + k) = (Y, k) := civilOfRd_complete Y k hkmax
  have hrd : rdOfYear Y + (n % 52) * 7 = rdOfYear Y + (k : Int) := by omega
  simp only [sifToDatetime, datetimeToSif]
  rw [← hY, hrd]
  have h := rdOfDate_dateOfRd (rdOfYear Y + (k : Int)) 0
  have hyear : (dateOfRd (rdOfYear Y + (k : Int)) 0).year = Y := by
    rw [h.2.2, hciv]
  rw [hyear]
  have hdays : dayOfYearDays (dateOfRd (rdOfYear Y + (k : Int)) 0) = (k : Int) := by
    unfold dayOfYearDays
    rw [hyear]
    simp only [usSinceEpoch]
    rw [h.1, h.2.1]
    unfold usPerDay nsPerDay
    omega
  rw [hdays]
  have : 52 * (Y - 1960) + (k : Int) / 7 = n := by
    rw [hY]
    omega
  rw [this]

theorem encDec_tm (n : Int) : datetimeToSif .tm (sifToDatetime .tm n) = ((n : Int) : ℚ) := by
  simp only [sifToDatetime, datetimeToSif]
  exact_mod_cast congrArg (fun z : Int => (z : ℚ)) (by omega :
    (12 * (1960 + n / 12 - 1960) + (n % 12 + 1) - 1 : Int) = n)

theorem encDec_tq (n : Int) : datetimeToSif .tq (sifToDatetime .tq n) = ((n : Int) : ℚ) := by
  simp only [sifToDatetime, datetimeToSif]
  exact_mod_cast congrArg (fun z : Int => (z : ℚ)) (by omega :
    (4 * (1960 + n / 4 - 1960) + (n % 4 * 3 + 1 - 1) / 3 : Int) = n)

theorem encDec_th (n : Int) : datetimeToSif .th (sifToDatetime .th n) = ((n : Int) : ℚ) := by
  simp only [sifToDatetime, datetimeToSif]
  split_ifs with hif
  · exact_mod_cast (show (2 * (1960 + n / 2 - 1960) + 1 : Int) = n by omega)
  · exact_mod_cast (show (2 * (1960 + n / 2 - 1960) + 0 : Int) = n by omega)

theorem encDec_ty (n : Int) : datetimeToSif .ty (sifToDatetime .ty n) = ((n : Int) : ℚ) := by
  simp only [sifToDatetime, datetimeToSif]

set_option maxRecDepth 10000 in
theorem readDateCell_missing (fmt : StataDateFmt) : readDateCell fmt sifMissingValue = none := by
  unfold readDateCell
  rw [if_pos]
  right
  rw [validMaxD_eq]
  show ((((2^53 - 1) * 2^970 : Nat) : Int) : ℚ) < sifMissingValue
  have h1 : sifMissingValue = (((2^1023 : Nat) : Int) : ℚ) := by decide
  rw [h1, Int.cast_lt]
  norm_num

/-- **C1.** For every supported date tag in `{tc, td, tw, tm, tq, th, ty}`
and every in-range Stata-internal-format value, encoding the decoded
date with `_datetime_to_stata_elapsed_vec` yields exactly that value
again, and reading it back (missing scan plus
`_stata_elapsed_date_to_datetime_vec`) yields the original date; and
encoding a null date yields exactly the float64 generic missing-sentinel
bit pattern `0x7fe0000000000000`, which decodes back to null.  The
in-range hypotheses mirror the representability limits of the source:
documented `datetime64[ns]`/`datetime.datetime` year ranges per tag, and
for `tc` a delta below `2 ** 53` microseconds so that the source's
float64 arithmetic is exact. -/
theorem c1_date_codec_roundtrip :
    (∀ n : Int, -(2^53) ≤ 1000 * n → 1000 * n ≤ 2^53 → sifRoundTrip .tc n) ∧
    (∀ n : Int, -106751 ≤ n → n ≤ 106751 → sifRoundTrip .td n) ∧
    (∀ n : Int, 1 ≤ 1960 + n / 52 → 1960 + n / 52 ≤ 9999 → sifRoundTrip .tw n) ∧
    (∀ n : Int, 1 ≤ 1960 + n / 12 → 1960 + n / 12 ≤ 9999 → sifRoundTrip .tm n) ∧
    (∀ n : Int, 1 ≤ 1960 + n / 4 → 1960 + n / 4 ≤ 9999 → sifRoundTrip .tq n) ∧
    (∀ n : Int, 1 ≤ 1960 + n / 2 → 1960 + n / 2 ≤ 9999 → sifRoundTrip .th n) ∧
    (∀ n : Int, 1 ≤ n → n ≤ 9999 → sifRoundTrip .ty n) ∧
    (∀ fmt, encodeDateCell fmt none = sifMissingValue) ∧
    leBytesToNat sifMissingBytes = 0x7fe0000000000000 ∧
    (∀ fmt, readDateCell fmt (encodeDateCell fmt none) = none) := by
  have hstep : ∀ (fmt : StataDateFmt) (n : Int),
      datetimeToSif fmt (sifToDatetime fmt n) = ((n : Int) : ℚ) →
      -(2^62) ≤ n → n ≤ 2^62 → sifRoundTrip fmt n := by
    intro fmt n henc hb1 hb2
    refine ⟨henc, ?_⟩
    show readDateCell fmt (datetimeToSif fmt (sifToDatetime fmt n)) = _
    rw [henc]
    exact readDateCell_of_small fmt n hb1 hb2
  refine ⟨?_, ?_, ?_, ?_, ?_, ?_, ?_, ?_, by decide, ?_⟩
  · intro n h1 h2
    exact hstep .tc n (encDec_tc n) (by omega) (by omega)
  · intro n h1 h2
    exact hstep .td n (encDec_td n) (by omega) (by omega)
  · intro n h1 h2
    exact hstep .tw n (encDec_tw n) (by omega) (by omega)
  · intro n h1 h2
    exact hstep .tm n (encDec_tm n) (by omega) (by omega)
  · intro n h1 h2
    exact hstep .tq n (encDec_tq n) (by omega) (by omega)
  · intro n h1 h2
    exact hstep .th n (encDec_th n) (by omega) (by omega)
  · intro n h1 h2
    exact hstep .ty n (encDec_ty n) (by omega) (by omega)
  · intro fmt
    rfl
  · intro fmt
    show readDateCell fmt sifMissingValue = none
    exact readDateCell_missing fmt

/-- **C1, witness.** The docstring example: week 52 decodes to
1961-01-01 and round-trips. -/
theorem c1_date_codec_roundtrip_witness : sifRoundTrip .tw 52 :=
  c1_date_codec_roundtrip.2.2.1 52 (by norm_num) (by norm_num)

/-! ### Missing-value bijection lemmas -/

theorem missingValueBijection_spec_b :
    (missingValuePairs .b).length = 27 ∧
    (∀ i : Fin 27, symbolForSentinel .b (sentinelVal .b i.1) = some (missingSymbol i.1)) ∧
    (∀ i j : Fin 27, sentinelVal .b i.1 = sentinelVal .b j.1 → i = j) ∧
    (∀ i : Fin 27, sentinelForSymbol .b (missingSymbol i.1) = some (sentinelVal .b i.1)) := by
  decide

theorem missingValueBijection_spec_h :
    (missingValuePairs .h).length = 27 ∧
    (∀ i : Fin 27, symbolForSentinel .h (sentinelVal .h i.1) = some (missingSymbol i.1)) ∧
    (∀ i j : Fin 27, sentinelVal .h i.1 = sentinelVal .h j.1 → i = j) ∧
    (∀ i : Fin 27, sentinelForSymbol .h (missingSymbol i.1) = some (sentinelVal .h i.1)) := by
  decide

theorem missingValueBijection_spec_l :
    (missingValuePairs .l).length = 27 ∧
    (∀ i : Fin 27, symbolForSentinel .l (sentinelVal .l i.1) = some (missingSymbol i.1)) ∧
    (∀ i j : Fin 27, sentinelVal .l i.1 = sentinelVal .l j.1 → i = j) ∧
    (∀ i : Fin 27, sentinelForSymbol .l (missingSymbol i.1) = some (sentinelVal .l i.1)) := by
  decide

set_option maxRecDepth 10000 in
theorem missingValueBijection_spec_f :
    (missingValuePairs .f).length = 27 ∧
    (∀ i : Fin 27, symbolForSentinel .f (sentinelVal .f i.1) = some (missingSymbol i.1)) ∧
    (∀ i j : Fin 27, sentinelVal .f i.1 = sentinelVal .f j.1 → i = j) ∧
    (∀ i : Fin 27, sentinelForSymbol .f (missingSymbol i.1) = some (sentinelVal .f i.1)) := by
  decide

set_option maxRecDepth 10000 in
theorem missingValueBijection_spec_d :
    (missingValuePairs .d).length = 27 ∧
    (∀ i : Fin 27, symbolForSentinel .d (sentinelVal .d i.1) = some (missingSymbol i.1)) ∧
    (∀ i j : Fin 27, sentinelVal .d i.1 = sentinelVal .d j.1 → i = j) ∧
    (∀ i : Fin 27, sentinelForSymbol .d (missingSymbol i.1) = some (sentinelVal .d i.1)) := by
  decide

theorem missingSymbol_inj : ∀ i j : Fin 27, missingSymbol i.1 = missingSymbol j.1 → i = j := by
  decide

/-- **C2.** For each scalar kind, the sentinel/symbol mapping built in
`StataMissingValue.MISSING_VALUES` is a bijection over the 27 symbols
`.`, `.a` … `.z`: there are exactly 27 entries, the `i`-th sentinel
value maps to the `i`-th symbol, sentinel values and symbols are each
pairwise distinct, and composing sentinel-to-symbol after
symbol-to-sentinel is the identity on all 27 symbols. -/
theorem c2_missing_value_bijection :
    ∀ k : StataKind,
      (missingValuePairs k).length = 27 ∧
      (∀ i : Fin 27, symbolForSentinel k (sentinelVal k i.1) = some (missingSymbol i.1)) ∧
      (∀ i j : Fin 27, sentinelVal k i.1 = sentinelVal k j.1 → i = j) ∧
      (∀ i j : Fin 27, missingSymbol i.1 = missingSymbol j.1 → i = j) ∧
      (∀ i : Fin 27, sentinelForSymbol k (missingSymbol i.1) = some (sentinelVal k i.1)) := by
  intro k
  cases k with
  | b => exact ⟨missingValueBijection_spec_b.1, missingValueBijection_spec_b.2.1,
      missingValueBijection_spec_b.2.2.1, missingSymbol_inj, missingValueBijection_spec_b.2.2.2⟩
  | h => exact ⟨missingValueBijection_spec_h.1, missingValueBijection_spec_h.2.1,
      missingValueBijection_spec_h.2.2.1, missingSymbol_inj, missingValueBijection_spec_h.2.2.2⟩
  | l => exact ⟨missingValueBijection_spec_l.1, missingValueBijection_spec_l.2.1,
      missingValueBijection_spec_l.2.2.1, missingSymbol_inj, missingValueBijection_spec_l.2.2.2⟩
  | f => exact ⟨missingValueBijection_spec_f.1, missingValueBijection_spec_f.2.1,
      missingValueBijection_spec_f.2.2.1, missingSymbol_inj, missingValueBijection_spec_f.2.2.2⟩
  | d => exact ⟨missingValueBijection_spec_d.1, missingValueBijection_spec_d.2.1,
      missingValueBijection_spec_d.2.2.1, missingSymbol_inj, missingValueBijection_spec_d.2.2.2⟩

/-- **C8, counterexample.** The float64 increment the code unpacks
(`struct.unpack('q', b'\x00\x00\x00\x00\x00\x01\x00\x00')`) is
`0x0000010000000000` = 2^40, not the claimed `0x0000000001000000`
= 2^24; consequently the generated float64 bit-pattern list differs from
the one the claimed increment would produce. -/
theorem c8_float64_increment_counterexample :
    f64SentinelInc = 2^40 ∧
    f64SentinelInc ≠ 0x0000000001000000 ∧
    genSentinelBits f64SentinelBase f64SentinelInc 27 ≠
      (List.range 27).map (fun i => 0x7fe0000000000000 + i * 0x0000000001000000) := by
  decide

/-- **C8, amended.** The 27 floating-point missing-sentinel bit patterns
of each floating kind are generated from a base pattern by adding a
fixed increment to the integer view 26 times: float32 base `0x7f000000`
with increment `0x00000800`, float64 base `0x7fe0000000000000` (top
bytes `e0 7f` in the little-endian byte string) with increment
`0x0000010000000000` in the 64-bit integer view. -/
theorem c8_sentinel_generation :
    f32SentinelBase = 0x7f000000 ∧
    f32SentinelInc = 0x00000800 ∧
    f64SentinelBase = 0x7fe0000000000000 ∧
    f64SentinelInc = 0x0000010000000000 ∧
    genSentinelBits f32SentinelBase f32SentinelInc 27 =
      (List.range 27).map (fun i => 0x7f000000 + i * 0x00000800) ∧
    genSentinelBits f64SentinelBase f64SentinelInc 27 =
      (List.range 27).map (fun i => 0x7fe0000000000000 + i * 0x0000010000000000) := by
  decide

/-! ### Column max/min lemmas -/

theorem foldl_max_le (c : Int) : ∀ (xs : List Int) (x : Int),
    xs.foldl max x ≤ c ↔ x ≤ c ∧ ∀ v ∈ xs, v ≤ c := by
  intro xs
  induction xs with
  | nil => intro x; simp
  | cons y ys ih =>
    intro x
    simp only [List.foldl_cons, ih, max_le_iff, List.mem_cons]
    constructor
    · rintro ⟨⟨h1, h2⟩, h3⟩
      exact ⟨h1, fun v hv => by rcases hv with rfl | hv; exact h2; exact h3 v hv⟩
    · rintro ⟨h1, h2⟩
      exact ⟨⟨h1, h2 y (Or.inl rfl)⟩, fun v hv => h2 v (Or.inr hv)⟩

theorem foldl_min_ge (c : Int) : ∀ (xs : List Int) (x : Int),
    c ≤ xs.foldl min x ↔ c ≤ x ∧ ∀ v ∈ xs, c ≤ v := by
  intro xs
  induction xs with
  | nil => intro x; simp
  | cons y ys ih =>
    intro x
    simp only [List.foldl_cons, ih, le_min_iff, List.mem_cons]
    constructor
    · rintro ⟨⟨h1, h2⟩, h3⟩
      exact ⟨h1, fun v hv => by rcases hv with rfl | hv; exact h2; exact h3 v hv⟩
    · rintro ⟨h1, h2⟩
      exact ⟨⟨h1, h2 y (Or.inl rfl)⟩, fun v hv => h2 v (Or.inr hv)⟩

theorem listMax_le_iff (x : Int) (xs : List Int) (c : Int) :
    listMax (x :: xs) ≤ c ↔ ∀ v ∈ x :: xs, v ≤ c := by
  simp only [listMax, foldl_max_le, List.mem_cons]
  constructor
  · rintro ⟨h1, h2⟩ v (rfl | hv)
    · exact h1
    · exact h2 v hv
  · intro h
    exact ⟨h x (Or.inl rfl), fun v hv => h v (Or.inr hv)⟩

theorem listMin_ge_iff (x : Int) (xs : List Int) (c : Int) :
    c ≤ listMin (x :: xs) ↔ ∀ v ∈ x :: xs, c ≤ v := by
  simp only [listMin, foldl_min_ge, List.mem_cons]
  constructor
  · rintro ⟨h1, h2⟩ v (rfl | hv)
    · exact h1
    · exact h2 v hv
  · intro h
    exact ⟨h x (Or.inl rfl), fun v hv => h v (Or.inr hv)⟩

theorem lt_listMax_iff (x : Int) (xs : List Int) (c : Int) :
    c < listMax (x :: xs) ↔ ∃ v ∈ x :: xs, c < v := by
  rw [← not_iff_not]
  push_neg
  exact listMax_le_iff x xs c

theorem listMin_lt_iff (x : Int) (xs : List Int) (c : Int) :
    listMin (x :: xs) < c ↔ ∃ v ∈ x :: xs, v < c := by
  rw [← not_iff_not]
  push_neg
  exact listMin_ge_iff x xs c

/-- **C3.** The writer-side cast `_cast_to_stata_types` lands on a
format-legal type for every modelled input dtype, and behaves on the
int64/int8/int16 branches exactly as claimed: an int64 column is
downcast to int32 exactly when all values lie within
`[-2147483647, 2147483620]`, otherwise upcast to float64 with a
`PossiblePrecisionLoss` warning exactly when some magnitude reaches
`2 ** 53`; an int8 column is widened to int16 exactly when its max
exceeds 100 or its min is below -127; an int16 column is widened to
int32 exactly when its max exceeds 32740 or its min is below -32767. -/
theorem c3_cast_to_stata_types :
    ∀ vals : List Int, vals ≠ [] →
      ((∀ v ∈ vals, -2147483647 ≤ v ∧ v ≤ 2147483620) →
        castToStataTypesCol .int64 vals = (.int32, false)) ∧
      ((∃ v ∈ vals, v < -2147483647 ∨ 2147483620 < v) →
        (castToStataTypesCol .int64 vals).1 = .float64 ∧
        ((castToStataTypesCol .int64 vals).2 = true ↔ ∃ v ∈ vals, 2^53 ≤ v ∨ v ≤ -(2^53))) ∧
      ((∃ v ∈ vals, 100 < v ∨ v < -127) → castToStataTypesCol .int8 vals = (.int16, false)) ∧
      ((∀ v ∈ vals, -127 ≤ v ∧ v ≤ 100) → castToStataTypesCol .int8 vals = (.int8, false)) ∧
      ((∃ v ∈ vals, 32740 < v ∨ v < -32767) → castToStataTypesCol .int16 vals = (.int32, false)) ∧
      ((∀ v ∈ vals, -32767 ≤ v ∧ v ≤ 32740) → castToStataTypesCol .int16 vals = (.int16, false)) ∧
      (∀ dt, stataLegalDtype (castToStataTypesCol dt vals).1 = true) := by
  intro vals hne
  obtain ⟨x, xs, rfl⟩ : ∃ x xs, vals = x :: xs := by
    cases vals with
    | nil => simp at hne
    | cons a l => exact ⟨a, l, rfl⟩
  have hlegal : ∀ dt, stataLegalDtype (castToStataTypesCol dt (x :: xs)).1 = true := by
    intro dt
    cases dt <;> simp only [castToStataTypesCol, castPre] <;>
      (try split_ifs) <;> simp [stataLegalDtype]
  refine ⟨?_, ?_, ?_, ?_, ?_, ?_, hlegal⟩
  · intro h
    have hmx : listMax (x :: xs) ≤ 2147483620 := (listMax_le_iff x xs _).mpr (fun v hv => (h v hv).2)
    have hmn : -2147483647 ≤ listMin (x :: xs) := (listMin_ge_iff x xs _).mpr (fun v hv => (h v hv).1)
    simp only [castToStataTypesCol, castPre]
    rw [if_pos ⟨hmx, hmn⟩]
  · intro h
    have hcond : ¬ (listMax (x :: xs) ≤ 2147483620 ∧ -2147483647 ≤ listMin (x :: xs)) := by
      rcases h with ⟨v, hv, hlo | hhi⟩
      · intro ⟨_, hmn⟩
        have := (listMin_ge_iff x xs _).mp hmn v hv
        omega
      · intro ⟨hmx, _⟩
        have := (listMax_le_iff x xs _).mp hmx v hv
        omega
    constructor
    · simp only [castToStataTypesCol, castPre]
      rw [if_neg hcond]
    · simp only [castToStataTypesCol, castPre]
      rw [if_neg hcond]
      simp only [decide_eq_true_eq]
      constructor
      · rintro (hmx | hmn)
        · obtain ⟨v, hv, hvlt⟩ := (lt_listMax_iff x xs (2^53 - 1)).mp (by omega)
          exact ⟨v, hv, Or.inl (by omega)⟩
        · obtain ⟨v, hv, hvlt⟩ := (listMin_lt_iff x xs (-(2^53) + 1)).mp (by omega)
          exact ⟨v, hv, Or.inr (by omega)⟩
      · rintro ⟨v, hv, hbig | hsmall⟩
        · left
          have : ¬ listMax (x :: xs) ≤ 2^53 - 1 := by
            rw [listMax_le_iff]
            push_neg
            exact ⟨v, hv, by omega⟩
          omega
        · right
          have : ¬ (-(2^53) + 1) ≤ listMin (x :: xs) := by
            rw [listMin_ge_iff]
            push_neg
            exact ⟨v, hv, by omega⟩
          omega
  · intro h
    have hcond : 100 < listMax (x :: xs) ∨ listMin (x :: xs) < -127 := by
      rcases h with ⟨v, hv, hhi | hlo⟩
      · exact Or.inl ((lt_listMax_iff x xs _).mpr ⟨v, hv, hhi⟩)
      · exact Or.inr ((listMin_lt_iff x xs _).mpr ⟨v, hv, hlo⟩)
    simp only [castToStataTypesCol, castPre]
    rw [if_pos hcond]
  · intro h
    have hcond : ¬ (100 < listMax (x :: xs) ∨ listMin (x :: xs) < -127) := by
      rintro (hmx | hmn)
      · obtain ⟨v, hv, hvlt⟩ := (lt_listMax_iff x xs _).mp hmx
        have := (h v hv).2
        omega
      · obtain ⟨v, hv, hvlt⟩ := (listMin_lt_iff x xs _).mp hmn
        have := (h v hv).1
        omega
    simp only [castToStataTypesCol, castPre]
    rw [if_neg hcond]
  · intro h
    have hcond : 32740 < listMax (x :: xs) ∨ listMin (x :: xs) < -32767 := by
      rcases h with ⟨v, hv, hhi | hlo⟩
      · exact Or.inl ((lt_listMax_iff x xs _).mpr ⟨v, hv, hhi⟩)
      · exact Or.inr ((listMin_lt_iff x xs _).mpr ⟨v, hv, hlo⟩)
    simp only [castToStataTypesCol, castPre]
    rw [if_pos hcond]
  · intro h
    have hcond : ¬ (32740 < listMax (x :: xs) ∨ listMin (x :: xs) < -32767) := by
      rintro (hmx | hmn)
      · obtain ⟨v, hv, hvlt⟩ := (lt_listMax_iff x xs _).mp hmx
        have := (h v hv).2
        omega
      · obtain ⟨v, hv, hvlt⟩ := (listMin_lt_iff x xs _).mp hmn
        have := (h v hv).1
        omega
    simp only [castToStataTypesCol, castPre]
    rw [if_neg hcond]

/-- **C3, witness.** A concrete int64 column within the int32 window is
downcast to int32, and a column reaching `2 ** 53` is upcast to float64
with the precision warning. -/
theorem c3_cast_to_stata_types_witness :
    castToStataTypesCol .int64 [5, -3] = (.int32, false) ∧
    (castToStataTypesCol .int64 [2^53, 0]).1 = .float64 ∧
    (castToStataTypesCol .int64 [2^53, 0]).2 = true := by
  have h1 := (c3_cast_to_stata_types [5, -3] (by simp)).1
  have h2 := (c3_cast_to_stata_types [2^53, 0] (by simp)).2.1
  refine ⟨h1 ?_, (h2 ?_).1, ?_⟩
  · intro v hv
    simp only [List.mem_cons, List.mem_singleton] at hv
    rcases hv with rfl | rfl | h
    · omega
    · omega
    · simp at h
  · exact ⟨2^53, by simp, Or.inr (by norm_num)⟩
  · rw [(h2 ⟨2^53, by simp, Or.inr (by norm_num)⟩).2]
    exact ⟨2^53, by simp, Or.inl (by norm_num)⟩

/-! ### Reader missing-replacement and sequencing -/

/-- **C6, counterexample.** For format version 108 (a legacy version
below 117), `_read_value_labels` returns early before setting
`_value_labels_read` (value labels are unsupported at or below 108), so
after a first successful labels read the state is unchanged and a
second read succeeds instead of raising the claimed `SequenceError`. -/
theorem c6_labels_twice_counterexample :
    readValueLabelsStep ⟨108, true, false⟩ = .ok ⟨108, true, false⟩ ∧
    readValueLabelsStep ⟨108, true, false⟩ ≠ .error seqErrLabelsTwice := by
  constructor
  · rfl
  · intro h
    simp [readValueLabelsStep] at h

/-- **C6, amended.** For a legacy-format reader (version < 117):
requesting value labels before the data has been read raises a
`SequenceError`; after the data has been read, reading the data a
second time raises a `SequenceError`; and for legacy versions above 108
(those that actually read labels), reading the value labels a second
time raises a `SequenceError`. -/
theorem c6_legacy_sequence_errors :
    (∀ v vl, v < 117 → readValueLabelsStep ⟨v, false, vl⟩ = .error seqErrDataNotRead) ∧
    (∀ v vl sc sc', v < 117 →
      (dataMethodStep ((dataMethodStep ⟨v, false, vl⟩ sc).1) sc').2 = .error seqErrDataTwice) ∧
    (∀ v, 108 < v → v < 117 →
      readValueLabelsStep ⟨v, true, false⟩ = .ok ⟨v, true, true⟩ ∧
      readValueLabelsStep ⟨v, true, true⟩ = .error seqErrLabelsTwice) := by
  refine ⟨?_, ?_, ?_⟩
  · intro v vl hv
    simp [readValueLabelsStep, Nat.not_le.mpr hv]
  · intro v vl sc sc' hv
    simp only [dataMethodStep]
    split_ifs <;> simp_all
  · intro v h1 h2
    constructor
    · simp only [readValueLabelsStep]
      split_ifs <;> first | rfl | omega | simp_all
    · simp only [readValueLabelsStep]
      split_ifs <;> first | rfl | omega | simp_all

/-- **C6, witness.** Version 113. -/
theorem c6_legacy_sequence_errors_witness :
    readValueLabelsStep ⟨113, false, false⟩ = .error seqErrDataNotRead ∧
    (dataMethodStep ((dataMethodStep ⟨113, false, false⟩ true).1) true).2 =
      .error seqErrDataTwice ∧
    readValueLabelsStep ⟨113, true, false⟩ = .ok ⟨113, true, true⟩ ∧
    readValueLabelsStep ⟨113, true, true⟩ = .error seqErrLabelsTwice :=
  ⟨c6_legacy_sequence_errors.1 113 false (by norm_num),
   c6_legacy_sequence_errors.2.1 113 false true true (by norm_num),
   (c6_legacy_sequence_errors.2.2 113 (by norm_num) (by norm_num)).1,
   (c6_legacy_sequence_errors.2.2 113 (by norm_num) (by norm_num)).2⟩

/-- **C10.** `data()` sets the data-already-read flag on entry, before
any bytes of the data block are consumed: any call on a fresh state
leaves the flag set whether or not the body succeeds; a call on a state
with the flag set fails immediately with the data-twice error and does
not touch the state; consequently after a first call that failed partway
(truncated stream), every subsequent call raises the data-already-read
error instead of retrying. -/
theorem c10_data_read_flag :
    (∀ s sc, s.dataRead = false → ((dataMethodStep s sc).1).dataRead = true) ∧
    (∀ s sc, s.dataRead = true → dataMethodStep s sc = (s, .error seqErrDataTwice)) ∧
    (∀ s sc, s.dataRead = false → (dataMethodStep s false).2 = .error "truncated stream" ∧
      (dataMethodStep ((dataMethodStep s false).1) sc).2 = .error seqErrDataTwice) := by
  refine ⟨?_, ?_, ?_⟩
  · intro s sc hs
    simp [dataMethodStep, hs]
    split <;> simp
  · intro s sc hs
    simp [dataMethodStep, hs]
  · intro s sc hs
    simp [dataMethodStep, hs]

/-- **C10, witness.** A fresh version-114 reader state whose first
`data()` call fails on a truncated stream. -/
theorem c10_data_read_flag_witness :
    ((dataMethodStep ⟨114, false, false⟩ false).1).dataRead = true ∧
    (dataMethodStep ((dataMethodStep ⟨114, false, false⟩ false).1) true).2 =
      .error seqErrDataTwice :=
  ⟨c10_data_read_flag.1 ⟨114, false, false⟩ false rfl,
   (c10_data_read_flag.2.2 ⟨114, false, false⟩ true rfl).2⟩

/-! ### Column-name sanitization lemmas -/

theorem dedupLoop_count : ∀ fuel cols dupId name final dupId',
    dedupLoop fuel cols dupId name = some (final, dupId') → cols.count final = 0 := by
  intro fuel
  induction fuel with
  | zero =>
    intro cols dupId name final dupId' h
    simp [dedupLoop] at h
  | succ fuel ih =>
    intro cols dupId name final dupId' h
    simp only [dedupLoop] at h
    by_cases hc : 0 < cols.count name
    · rw [if_pos hc] at h
      exact ih cols (dupId + 1) _ final dupId' h
    · rw [if_neg hc] at h
      cases h
      omega

theorem pairwise_ne_set (l : List String) (j : Nat) (x : String)
    (hp : l.Pairwise (· ≠ ·)) (hx : x ∉ l) : (l.set j x).Pairwise (· ≠ ·) := by
  rw [List.pairwise_iff_getElem] at hp ⊢
  intro a b ha hb hab
  rw [List.length_set] at ha hb
  rw [List.getElem_set, List.getElem_set]
  split_ifs with h1 h2
  · omega
  · intro he
    exact hx (he ▸ List.getElem_mem hb)
  · intro he
    exact hx (he ▸ List.getElem_mem ha)
  · exact hp a b ha hb hab

theorem ccnGo_pairwise : ∀ rem cols fuel j dupId log out log',
    cols.Pairwise (· ≠ ·) →
    checkColumnNamesGo rem cols fuel j dupId log = some (out, log') →
    out.Pairwise (· ≠ ·) := by
  intro rem
  induction rem with
  | zero =>
    intro cols fuel j dupId log out log' hp h
    simp only [checkColumnNamesGo] at h
    cases h
    exact hp
  | succ rem ih =>
    intro cols fuel j dupId log out log' hp h
    simp only [checkColumnNamesGo] at h
    cases hg : cols.get? j with
    | none =>
      simp only [hg] at h
      cases h
      exact hp
    | some orig =>
      simp only [hg] at h
      by_cases he : sanitizeName orig = orig
      · rw [if_pos he] at h
        exact ih cols fuel (j + 1) dupId log out log' hp h
      · rw [if_neg he] at h
        cases hd : dedupLoop fuel cols dupId (sanitizeName orig) with
        | none =>
          simp only [hd] at h
          cases h
        | some p =>
          obtain ⟨final, did⟩ := p
          simp only [hd] at h
          have hcount := dedupLoop_count fuel cols dupId (sanitizeName orig) final did hd
          have hnotmem : final ∉ cols := List.count_eq_zero.mp hcount
          exact ih (cols.set j final) fuel (j + 1) did _ out log'
            (pairwise_ne_set cols j final hp hnotmem) h

/-- **C7, counterexample.** Two input columns that both carry the
already-legal name `"a"` sanitize to the same name, are left untouched
by `_check_column_names` (the deduplication loop runs only for names
that were changed), and therefore do *not* receive distinct names. -/
theorem c7_duplicate_names_counterexample :
    checkColumnNames 100 ["a", "a"] = some (["a", "a"], []) ∧
    sanitizeName "a" = "a" ∧
    ¬ (["a", "a"] : List String).Pairwise (· ≠ ·) := by
  refine ⟨by decide, by decide, by decide⟩

/-- **C7, amended.** Writer column-name sanitization replaces every
character outside `[A-Za-z0-9_]` with `_`, prefixes `_` when the result
is a reserved word or begins with a digit, and truncates to 32
characters, so `"1 a-b"` becomes `"_1_a_b"`; when two input columns with
*distinct original names* sanitize to the same name, each gets a
distinct name by prepending `_` and an incrementing counter; and all
renames are reported in one single aggregated `InvalidColumnName`
warning rather than one warning per rename. -/
theorem c7_column_name_sanitization :
    sanitizeName "1 a-b" = "_1_a_b" ∧
    sanitizeName "int" = "_int" ∧
    checkColumnNames 100 ["a b", "a-b"] =
      some (["a_b", "_0a_b"], [renameLogEntry "a b" "a_b", renameLogEntry "a-b" "_0a_b"]) ∧
    (∀ log : List String, (invalidNameWarnings log).length ≤ 1) ∧
    (∀ log : List String, log ≠ [] →
      invalidNameWarnings log = [String.intercalate "\n    " log]) ∧
    (∀ fuel cols out log, cols.Pairwise (· ≠ ·) →
      checkColumnNames fuel cols = some (out, log) → out.Pairwise (· ≠ ·)) := by
  refine ⟨by decide, by decide, by decide, ?_, ?_, ?_⟩
  · intro log
    simp only [invalidNameWarnings]
    split_ifs <;> simp
  · intro log hne
    simp [invalidNameWarnings, hne]
  · intro fuel cols out log hp h
    exact ccnGo_pairwise cols.length cols fuel 0 0 [] out log hp h

/-- **C7, witness.** The two colliding columns of the concrete example
end up pairwise distinct. -/
theorem c7_column_name_sanitization_witness :
    (["a_b", "_0a_b"] : List String).Pairwise (· ≠ ·) :=
  c7_column_name_sanitization.2.2.2.2.2 100 ["a b", "a-b"] ["a_b", "_0a_b"]
    [renameLogEntry "a b" "a_b", renameLogEntry "a-b" "_0a_b"]
    (by decide) c7_column_name_sanitization.2.2.1


/-! ### Version-117 header lemmas -/

theorem skipN_exact {n : Nat} {b r : List Nat} (h : b.length = n) :
    skipN n (b ++ r) = some r := by
  simp [skipN, takeN_exact h]

theorem skipN_zero (l : List Nat) : skipN 0 l = some l := by
  simp [skipN, takeN]

theorem parseHdr117Preamble_spec (rest : List Nat) :
    parseHdr117Preamble ([60] ++ zeros 27 ++ [49, 49, 55] ++ zeros 21 ++
      [76, 83, 70] ++ zeros 15 ++ rest) = some (.little, rest) := by
  simp only [parseHdr117Preamble, Option.bind_eq_bind, List.append_assoc]
  rw [takeN_exact (by simp : ([60] : List Nat).length = 1)]
  simp only [Option.some_bind, if_pos rfl]
  rw [skipN_exact (zeros_length 27)]
  simp only [Option.some_bind]
  rw [takeN_exact (by simp : ([49, 49, 55] : List Nat).length = 3)]
  simp only [Option.some_bind]
  have hascii : parseAsciiNat [49, 49, 55] = some 117 := by decide
  rw [hascii]
  simp only [Option.some_bind, if_pos rfl]
  rw [skipN_exact (zeros_length 21)]
  simp only [Option.some_bind]
  rw [takeN_exact (by simp : ([76, 83, 70] : List Nat).length = 3)]
  simp only [Option.some_bind]
  rw [skipN_exact (zeros_length 15)]
  simp only [Option.some_bind]
  norm_num

theorem parseHdr117Counts_spec (nvar nobs : Nat) (rest : List Nat)
    (h1 : nvar < 65536) (h2 : nobs < 4294967296) :
    parseHdr117Counts .little (natToLeBytes 2 nvar ++ zeros 7 ++
      natToLeBytes 4 nobs ++ zeros 11 ++ rest) = some (nvar, nobs, rest) := by
  have p2 : (256 : Nat) ^ 2 = 65536 := by norm_num
  have p4 : (256 : Nat) ^ 4 = 4294967296 := by norm_num
  simp only [parseHdr117Counts, Option.bind_eq_bind, List.append_assoc]
  rw [takeN_exact (natToLeBytes_length 2 nvar)]
  simp only [Option.some_bind]
  rw [skipN_exact (zeros_length 7)]
  simp only [Option.some_bind]
  rw [takeN_exact (natToLeBytes_length 4 nobs)]
  simp only [Option.some_bind]
  rw [skipN_exact (zeros_length 11)]
  simp only [Option.some_bind, unpackUInt]
  rw [leBytes_roundtrip, leBytes_roundtrip, p2, p4,
    Nat.mod_eq_of_lt h1, Nat.mod_eq_of_lt h2]

theorem parseHdr117Strings_spec (rest : List Nat) :
    parseHdr117Strings ([0] ++ zeros 19 ++ [0] ++ zeros 26 ++ zeros 8 ++ zeros 8 ++ rest) =
      some rest := by
  simp only [parseHdr117Strings, Option.bind_eq_bind, List.append_assoc]
  rw [takeN_exact (by simp : ([0] : List Nat).length = 1)]
  simp only [Option.some_bind]
  rw [show leBytesToNat [0] = 0 from rfl, skipN_zero]
  simp only [Option.some_bind]
  rw [skipN_exact (zeros_length 19)]
  simp only [Option.some_bind]
  rw [takeN_exact (by simp : ([0] : List Nat).length = 1)]
  simp only [Option.some_bind]
  rw [show leBytesToNat [0] = 0 from rfl, skipN_zero]
  simp only [Option.some_bind]
  rw [skipN_exact (zeros_length 26)]
  simp only [Option.some_bind]
  rw [skipN_exact (zeros_length 8)]
  simp only [Option.some_bind]
  rw [skipN_exact (zeros_length 8)]

theorem readQ_exact (s : Nat) (rest : List Nat) (h : s < 2^63) :
    readQ .little (natToLeBytes 8 s ++ rest) = some ((s : Int), rest) := by
  have hmod : s % 256 ^ 8 = s := by
    have p8 : (256 : Nat) ^ 8 = 2 ^ 64 := by norm_num
    rw [p8]
    exact Nat.mod_eq_of_lt (lt_trans h (by norm_num))
  simp only [readQ, takeN_exact (natToLeBytes_length 8 s), Option.map, unpackInt64, unpackUInt,
    leBytes_roundtrip, hmod, signed64OfNat]
  rw [if_pos h]

theorem readQ_self (s : Nat) (h : s < 2^63) :
    readQ .little (natToLeBytes 8 s) = some ((s : Int), []) := by
  have hmod : s % 256 ^ 8 = s := by
    have p8 : (256 : Nat) ^ 8 = 2 ^ 64 := by norm_num
    rw [p8]
    exact Nat.mod_eq_of_lt (lt_trans h (by norm_num))
  simp only [readQ, takeN_self (natToLeBytes_length 8 s), Option.map, unpackInt64, unpackUInt,
    leBytes_roundtrip, hmod, signed64OfNat]
  rw [if_pos h]

theorem parseHdr117Offsets_spec (s1 s2 s3 s4 s5 sv sd st sl : Nat)
    (h1 : s1 < 2^63) (h2 : s2 < 2^63) (h3 : s3 < 2^63) (h4 : s4 < 2^63) (h5 : s5 < 2^63)
    (hd : sd < 2^63) (ht : st < 2^63) (hl : sl < 2^63) :
    parseHdr117Offsets .little
      (natToLeBytes 8 s1 ++ natToLeBytes 8 s2 ++ natToLeBytes 8 s3 ++ natToLeBytes 8 s4 ++
       natToLeBytes 8 s5 ++ natToLeBytes 8 sv ++ zeros 8 ++
       natToLeBytes 8 sd ++ natToLeBytes 8 st ++ natToLeBytes 8 sl) =
      some ⟨(s1 : Int), (s2 : Int), (s3 : Int), (s4 : Int), (s5 : Int),
            (sd : Int), (st : Int), (sl : Int)⟩ := by
  simp only [parseHdr117Offsets, Option.bind_eq_bind, List.append_assoc]
  rw [readQ_exact s1 _ h1]
  simp only [Option.some_bind]
  rw [readQ_exact s2 _ h2]
  simp only [Option.some_bind]
  rw [readQ_exact s3 _ h3]
  simp only [Option.some_bind]
  rw [readQ_exact s4 _ h4]
  simp only [Option.some_bind]
  rw [readQ_exact s5 _ h5]
  simp only [Option.some_bind]
  rw [skipN_exact (natToLeBytes_length 8 sv)]
  simp only [Option.some_bind]
  rw [skipN_exact (zeros_length 8)]
  simp only [Option.some_bind]
  rw [readQ_exact sd _ hd]
  simp only [Option.some_bind]
  rw [readQ_exact st _ ht]
  simp only [Option.some_bind]
  rw [readQ_self sl hl]
  simp only [Option.some_bind]

/-- **C4.** Parsing a synthetic version-117 header stored little-endian:
the reader adds the fixed constants `+16, +10, +10, +9, +19, +7, +14` to
the stored offsets of the vartypes, varnames, sortlist, formats,
value-label-names, strl-table and value-labels sections respectively
(and `+6` to the data position), and computes the variable-labels
position as the corrected value-label-names offset plus
`33*nvar + 20 + 17`, discarding the offset `sv` stored in the file for
that section. -/
theorem c4_header117_offsets (nvar s1 s2 s3 s4 s5 sv sd st sl : Nat)
    (hn : nvar < 65536)
    (h1 : s1 < 2^63) (h2 : s2 < 2^63) (h3 : s3 < 2^63) (h4 : s4 < 2^63) (h5 : s5 < 2^63)
    (hd : sd < 2^63) (ht : st < 2^63) (hl : sl < 2^63) :
    readHeader117 (mkFile117 nvar s1 s2 s3 s4 s5 sv sd st sl) =
      some
        { formatVersion := 117
          byteorder := .little
          nvar := nvar
          nobs := 0
          seekVartypes := (s1 : Int) + 16
          seekVarnames := (s2 : Int) + 10
          seekSortlist := (s3 : Int) + 10
          seekFormats := (s4 : Int) + 9
          seekValueLabelNames := (s5 : Int) + 19
          seekVariableLabels := (s5 : Int) + 19 + 33 * (nvar : Int) + 20 + 17
          dataLocation := (sd : Int) + 6
          seekStrls := (st : Int) + 7
          seekValueLabels := (sl : Int) + 14 } := by
  have hfile : mkFile117 nvar s1 s2 s3 s4 s5 sv sd st sl =
      [60] ++ zeros 27 ++ [49, 49, 55] ++ zeros 21 ++ [76, 83, 70] ++ zeros 15 ++
      (natToLeBytes 2 nvar ++ zeros 7 ++ natToLeBytes 4 0 ++ zeros 11 ++
      ([0] ++ zeros 19 ++ [0] ++ zeros 26 ++ zeros 8 ++ zeros 8 ++
      (natToLeBytes 8 s1 ++ natToLeBytes 8 s2 ++ natToLeBytes 8 s3 ++ natToLeBytes 8 s4 ++
       natToLeBytes 8 s5 ++ natToLeBytes 8 sv ++ zeros 8 ++
       natToLeBytes 8 sd ++ natToLeBytes 8 st ++ natToLeBytes 8 sl))) := by
    simp [mkFile117]
  rw [readHeader117, hfile]
  rw [parseHdr117Preamble_spec]
  simp only [Option.bind_eq_bind, Option.some_bind]
  rw [parseHdr117Counts_spec nvar 0 _ hn (by norm_num)]
  simp only [Option.some_bind]
  rw [parseHdr117Strings_spec]
  simp only [Option.some_bind]
  rw [parseHdr117Offsets_spec s1 s2 s3 s4 s5 sv sd st sl h1 h2 h3 h4 h5 hd ht hl]
  simp only [Option.some_bind]

/-- **C4, witness.** A concrete synthetic file. -/
theorem c4_header117_offsets_witness :
    readHeader117 (mkFile117 3 100 200 300 400 500 987654 600 700 800) =
      some
        { formatVersion := 117
          byteorder := .little
          nvar := 3
          nobs := 0
          seekVartypes := 116
          seekVarnames := 210
          seekSortlist := 310
          seekFormats := 409
          seekValueLabelNames := 519
          seekVariableLabels := 519 + 99 + 20 + 17
          dataLocation := 606
          seekStrls := 707
          seekValueLabels := 814 } := by
  have h := c4_header117_offsets 3 100 200 300 400 500 987654 600 700 800
    (by norm_num) (by norm_num) (by norm_num) (by norm_num) (by norm_num) (by norm_num)
    (by norm_num) (by norm_num) (by norm_num)
  rw [h]
  norm_num

/-! ### Version-117 long-string type code -/

theorem mapM_loop_except_ok_mem {α β ε : Type} (f : α → Except ε β) :
    ∀ (l : List α) (acc res : List β), List.mapM.loop f l acc = .ok res →
      ∀ a ∈ l, ∃ b, f a = .ok b := by
  intro l
  induction l with
  | nil => intro acc res h a ha; simp at ha
  | cons x xs ih =>
    intro acc res h a ha
    simp only [List.mapM.loop] at h
    cases hx : f x with
    | error e =>
      rw [hx] at h
      exact absurd h (by intro hh; exact Except.noConfusion hh)
    | ok b =>
      rw [hx] at h
      rcases List.mem_cons.mp ha with rfl | ha2
      · exact ⟨b, hx⟩
      · exact ih (b :: acc) res h a ha2

/-- **C9.** A version-117 type code 32768 (long string) makes the
conversion loop raise `ValueError("Long strings are not supported")` —
but the enclosing bare `except:` of `_read_header` catches it, and the
message-building `','.join(typlist)` over the *integer* type codes
itself raises `TypeError`, so the reader actually fails with that
`TypeError` and the long-strings message never propagates. -/
theorem c9_long_string_type_code :
    convTyp117 32768 = .error (.valueErr "Long strings are not supported") ∧
    convertTypList117 [32768] =
      .error (.typeErr "sequence item 0: expected str instance, int found") ∧
    convertTypList117 [32768] ≠ .error (.valueErr "Long strings are not supported") ∧
    convertTypList117 [251, 32768] =
      .error (.typeErr "sequence item 0: expected str instance, int found") := by
  refine ⟨by decide, by decide, by decide, by decide⟩

/-- Reading a version-117 type list containing the long-string code
never succeeds: the reader aborts (with some exception) rather than
skipping or truncating the column. -/
theorem convertTypList117_long_string_fails (ts : List Nat) (hmem : 32768 ∈ ts) :
    ∀ l, convertTypList117 ts ≠ .ok l := by
  intro l hok
  unfold convertTypList117 at hok
  cases hmapM : List.mapM convTyp117 ts with
  | error e =>
    rw [hmapM] at hok
    cases hpj : pyJoinComma (ts.map PyObj.pint) <;> rw [hpj] at hok <;> simp at hok
  | ok lst =>
    obtain ⟨c, hc⟩ := mapM_loop_except_ok_mem convTyp117 ts [] lst hmapM 32768 hmem
    simp [convTyp117] at hc

/-- **C2, witness.** Concrete instances of the bijection: entry counts,
a sentinel-to-symbol lookup, a symbol-to-sentinel lookup, and an
injectivity instance. -/
theorem c2_missing_value_bijection_witness :
    (missingValuePairs .b).length = 27 ∧
    symbolForSentinel .b (sentinelVal .b 3) = some (missingSymbol 3) ∧
    sentinelForSymbol .d (missingSymbol 0) = some (sentinelVal .d 0) ∧
    (Fin.mk (n := 27) 1 (by norm_num)) = Fin.mk 1 (by norm_num) :=
  ⟨(c2_missing_value_bijection .b).1,
   (c2_missing_value_bijection .b).2.1 ⟨3, by norm_num⟩,
   (c2_missing_value_bijection .d).2.2.2.2 ⟨0, by norm_num⟩,
   (c2_missing_value_bijection .h).2.2.1 ⟨1, by norm_num⟩ ⟨1, by norm_num⟩ rfl⟩
